import Mathlib

/-!
# Verification of the webcam motion-surveillance core (`src/main.py`)

Shallow embedding of the program's data model and control flow:

* configuration constants and startup validation (module level and
  `MotionDetector.__init__`),
* the motion decision of `MotionDetector.process_frame` (the part downstream
  of the external OpenCV analysis: the contour-area significance loop and the
  catch-all error handler),
* the rate-limited notification logic of the capture loop `MotionDetector.run`
  (`last_sent` debounce, latest-frame slot, per-cycle control flow),
* the daily scheduler's next-fire computation and fire behaviour
  (`MotionDetector.daily_photo_scheduler`),
* the secret-masking log formatter (`SecureFormatter.format`).

Wall-clock times (`time.time()` floats, `datetime` values) are embedded as
integers (seconds); the claims under scrutiny only involve integral instants.
The external capabilities (OpenCV analysis, Telegram transport, the camera)
enter as explicit per-cycle inputs: the analysis outcome is an
`Except String (List ℚ)` (failure, or the list of contour areas found), a
camera read is an `Option Frame`, and the delivery outcome of a send is a
`Bool` that the core's state update deliberately ignores, exactly as the
source does.
-/

namespace Surveillance

/-- Motion detection settings (src/main.py line 24): `MIN_CONTOUR_AREA = 5000`. -/
def MIN_CONTOUR_AREA : ℚ := 5000

/-- Send cooldown (src/main.py line 25): `SEND_INTERVAL = 3` seconds. -/
def SEND_INTERVAL : ℤ := 3

/-- Daily photo time (src/main.py line 28): `dt_time(14, 00)`, as seconds of day. -/
def DAILY_PHOTO_TIME : ℤ := 14 * 3600

/-- An opaque captured raster image. `frame.copy()` in the source produces an
equal immutable value, so copying is the identity on this embedding. -/
structure Frame where
  id : ℕ
deriving DecidableEq, Repr

/-- Mutable per-detector state set up in `MotionDetector.__init__`
(src/main.py lines 81-83): `last_sent = 0`, `frame_count = 0`,
`latest_frame = None`. -/
structure DetectorState where
  last_sent : ℤ
  frame_count : ℕ
  latest_frame : Option Frame
deriving DecidableEq, Repr

/-- `MotionDetector.__init__` initial state (src/main.py lines 81-83). -/
def initState : DetectorState :=
  { last_sent := 0, frame_count := 0, latest_frame := none }

/-- The rate-limiter test of src/main.py line 215:
`(current_time - self.last_sent) > SEND_INTERVAL`. -/
def shouldSend (lastSent now : ℤ) : Bool :=
  decide (now - lastSent > SEND_INTERVAL)

/-- The spec's description of the rate limiter (§4.2), written from its words
for refinement comparison: `lastSent` starts as a distinct "never", and
`shouldSend` returns true iff `now - lastSent > SEND_INTERVAL` or `lastSent`
is "never". -/
def shouldSend_spec (lastSent : Option ℤ) (now : ℤ) : Bool :=
  match lastSent with
  | none => true
  | some t => decide (now - t > SEND_INTERVAL)

/-- A sequence of send attempts at the given instants, recording `last_sent`
after each attempt that fires (src/main.py lines 215-218: the update is inside
the `if`, and unconditional with respect to delivery outcome). Returns the
`shouldSend` verdicts in order. -/
def attemptSeq (lastSent : ℤ) : List ℤ → List Bool
  | [] => []
  | t :: ts =>
    let r := shouldSend lastSent t
    r :: attemptSeq (if r then t else lastSent) ts

/-- The contour significance loop of `MotionDetector.process_frame`
(src/main.py lines 150-157): scan the contour areas, stop at the first one
strictly exceeding `MIN_CONTOUR_AREA`. -/
def contourScan : List ℚ → Bool
  | [] => false
  | area :: rest =>
    if area > MIN_CONTOUR_AREA then true else contourScan rest

/-- `MotionDetector.process_frame` (src/main.py lines 131-162): the whole body
runs under `try`; any failure of the analysis steps is caught, logged, and
turns into `False`. On success the contour areas feed the significance loop. -/
def process_frame (analysis : Except String (List ℚ)) : Bool :=
  match analysis with
  | .error _ => false
  | .ok areas => contourScan areas

/-- The per-cycle environment of the capture loop `MotionDetector.run`
(src/main.py lines 203-221): the camera read (`none` means `ret` was false),
the outcome of the OpenCV analysis inside `process_frame` (failure message or
contour areas), the current wall-clock time, and the delivery outcome of a
send should one be attempted (`send_photo` absorbs failures internally, so
the loop only observes that the call returned). -/
structure CycleInput where
  read : Option Frame
  analysis : Except String (List ℚ)
  now : ℤ
  delivered : Bool
deriving Repr

/-- Result of one iteration of the `while True` body of `MotionDetector.run`:
the updated state, whether the loop `break`s (camera read failure,
src/main.py lines 205-207), and whether `send_photo` was called for motion
(src/main.py line 217). -/
structure CycleOutcome where
  state : DetectorState
  stopped : Bool
  attempted : Bool
deriving DecidableEq, Repr

/-- One iteration of `MotionDetector.run` (src/main.py lines 204-221):
read a frame (failure breaks the loop), publish a copy to `latest_frame`,
run `process_frame`, and if motion was found and the cooldown has elapsed,
attempt a send and then set `last_sent := current_time` — irrespective of
`inp.delivered`, which the source never consults. -/
def runStep (s : DetectorState) (inp : CycleInput) : CycleOutcome :=
  match inp.read with
  | none => ⟨s, true, false⟩
  | some frame =>
    let s1 : DetectorState := { s with latest_frame := some frame }
    let motion := process_frame inp.analysis
    if motion = true ∧ inp.now - s.last_sent > SEND_INTERVAL then
      ⟨{ s1 with last_sent := inp.now }, false, true⟩
    else
      ⟨s1, false, false⟩

/-- The capture loop over a finite list of cycle environments: iterate
`runStep`, stopping early when a camera read fails (the `break` of
src/main.py line 207). -/
def runLoop (s : DetectorState) : List CycleInput → DetectorState
  | [] => s
  | inp :: rest =>
    let out := runStep s inp
    if out.stopped then out.state else runLoop out.state rest

/-- The frames the loop actually captures from a list of cycle environments:
every successful read up to (excluding) the first failed one, after which the
loop has exited. -/
def capturedFrames : List CycleInput → List Frame
  | [] => []
  | inp :: rest =>
    match inp.read with
    | none => []
    | some f => f :: capturedFrames rest

/-- A wall-clock instant as `datetime` sees it in the scheduler: a calendar
day index and the second within that day (`0 ≤ tod < 86400` for an actual
`datetime`). -/
structure Instant where
  day : ℕ
  tod : ℤ
deriving DecidableEq, Repr

/-- An instant mapped to absolute seconds, the order `datetime` comparison
and `timedelta` arithmetic use. -/
def Instant.abs (i : Instant) : ℤ := i.day * 86400 + i.tod

/-- The next-fire computation of `MotionDetector.daily_photo_scheduler`
(src/main.py lines 169-176): `scheduled = combine(now.date(), DAILY_PHOTO_TIME)`;
`if now >= scheduled: scheduled += timedelta(days=1)`. Comparing `now` with
`scheduled` on the same date reduces to comparing `now`'s time of day with
`DAILY_PHOTO_TIME`. -/
def nextScheduled (now : Instant) : Instant :=
  if now.tod ≥ DAILY_PHOTO_TIME then ⟨now.day + 1, DAILY_PHOTO_TIME⟩
  else ⟨now.day, DAILY_PHOTO_TIME⟩

/-- Observable effects of one iteration of the scheduler's `while True` body
(src/main.py lines 168-196): the instant the iteration fires at (after the
computed sleep), how many `send_photo` calls it makes, and how many warnings
it logs. `slot` is the value of `self.latest_frame` at wake-up time. -/
structure SchedIterOut where
  fireAt : Instant
  sinkCalls : ℕ
  warnings : ℕ
deriving DecidableEq, Repr

/-- One iteration of `MotionDetector.daily_photo_scheduler`: compute the next
occurrence of `DAILY_PHOTO_TIME`, sleep until it, then either send the held
frame (src/main.py lines 189-194) or log a warning when the slot is empty
(lines 195-196). -/
def schedulerIter (now : Instant) (slot : Option Frame) : SchedIterOut :=
  let sched := nextScheduled now
  match slot with
  | some _ => ⟨sched, 1, 0⟩
  | none => ⟨sched, 0, 1⟩

/-- How the program winds down after a successful startup, as far as the
exit-code model distinguishes:

* `interruptInRun`: the `KeyboardInterrupt` is raised inside `run`'s `try`
  and caught at src/main.py line 223; `run` returns through its `finally`
  (lines 227-229), but `main` is still awaiting
  `asyncio.gather(run, daily_photo_scheduler)` (lines 236-239) and the
  scheduler's `while True` loop (lines 168-196) has no `break`, `return`,
  or escaping exception, so `gather` — and with it the process — never
  finishes.
* `interruptEscapes`: the `KeyboardInterrupt` surfaces at the event-loop
  level instead; `main`'s `except ValueError` / `except Exception` handlers
  (lines 240-243) cannot catch a `BaseException`, so `asyncio.run(main())`
  re-raises it at module level (line 246) where nothing catches it, and the
  interpreter exits non-zero.
* `cameraReadFailure`: `cap.read()` reports failure and `run` breaks
  (lines 205-207) and returns through its `finally`; as with
  `interruptInRun`, `gather` keeps waiting on the scheduler forever and the
  process never exits. -/
inductive ShutdownCause where
  | interruptInRun
  | interruptEscapes
  | cameraReadFailure
deriving DecidableEq, Repr

/-- What the process observably does in the exit-code model: exit with code
0, exit with some non-zero code, or never exit at all; each remembers
whether `cv2.VideoCapture(0)` (src/main.py line 80) had run by then. -/
inductive ProcessExit where
  | exitZero (cameraAcquired : Bool)
  | exitNonZero (cameraAcquired : Bool)
  | neverExits (cameraAcquired : Bool)
deriving DecidableEq, Repr

/-- Python truthiness of `os.getenv`'s result: `None` and the empty string
are falsy. -/
def truthy : Option String → Bool
  | none => false
  | some s => !s.toList.isEmpty

/-- The token-shape check of `MotionDetector.__init__` (src/main.py line 76):
`':' in TELEGRAM_TOKEN`. -/
def tokenWellFormed (t : String) : Bool := t.toList.contains ':'

/-- Exit behaviour of the process as a function of the configured
credentials and of how the run winds down.

* src/main.py lines 20-21: if either env variable is missing or empty the
  module-level `raise ValueError` escapes (nothing catches it at import), the
  interpreter prints a traceback and exits with a non-zero status. Neither
  `Bot(...)` nor `cv2.VideoCapture(0)` has run.
* src/main.py lines 76-77: a present token without a `:` makes
  `MotionDetector.__init__` raise `ValueError` before `VideoCapture` (line 80);
  `main` catches it (lines 240-241), logs, and returns, so `asyncio.run(main())`
  finishes normally and the process exits 0 — camera never acquired.
* otherwise the detector starts and the camera is acquired; `main` then
  awaits `asyncio.gather(detector.run(), detector.daily_photo_scheduler())`
  and the scheduler never completes, so after startup `main` can only be
  left pending forever — when `run` returns after a caught interrupt or a
  camera-read failure — or be torn down by a `KeyboardInterrupt` escaping
  through `asyncio.run`, which exits non-zero. No path exits 0 after the
  camera is acquired. -/
def processOutcome (token chatId : Option String) (cause : ShutdownCause) :
    ProcessExit :=
  if !(truthy token && truthy chatId) then .exitNonZero false
  else
    match token with
    | none => .exitNonZero false
    | some t =>
      if !tokenWellFormed t then .exitZero false
      else
        match cause with
        | .interruptInRun => .neverExits true
        | .interruptEscapes => .exitNonZero true
        | .cameraReadFailure => .neverExits true

/-- The replacement text `'***'` of `SecureFormatter.format`
(src/main.py line 43). -/
def stars : List Char := ['*', '*', '*']

/-- Python's `str.replace(secret, mask)` on character lists: scan left to
right; wherever `sec` occurs, emit `mask` and resume after the occurrence
(non-overlapping); otherwise keep the character. -/
def replaceAll (sec mask : List Char) : List Char → List Char
  | [] => []
  | c :: rest =>
    if sec.isPrefixOf (c :: rest) then
      mask ++ replaceAll sec mask (List.drop (sec.length - 1) rest)
    else
      c :: replaceAll sec mask rest
termination_by s => s.length
decreasing_by
  · simp only [List.length_drop, List.length_cons]
    omega
  · simp

/-- `SecureFormatter.format` (src/main.py lines 36-44): after the base
formatting, replace each configured secret by `'***'` — but only secrets
longer than 4 characters (`if secret and len(secret) > 4`, line 42). -/
def secureFormat (secrets : List (List Char)) (msg : List Char) : List Char :=
  secrets.foldl
    (fun m sec => if sec.length > 4 then replaceAll sec stars m else m) msg

/-! ## Theorems -/

/-- The contour significance loop finds a hit iff some area strictly exceeds
the threshold. -/
lemma contourScan_eq_true_iff (areas : List ℚ) :
    contourScan areas = true ↔ ∃ a ∈ areas, a > MIN_CONTOUR_AREA := by
  induction areas with
  | nil => simp [contourScan]
  | cons a rest ih =>
    by_cases h : a > MIN_CONTOUR_AREA
    · simp only [contourScan, if_pos h, List.mem_cons]
      exact ⟨fun _ => ⟨a, Or.inl rfl, h⟩, fun _ => trivial⟩
    · simp only [contourScan, if_neg h, List.mem_cons, ih]
      constructor
      · rintro ⟨b, hb, hgt⟩
        exact ⟨b, Or.inr hb, hgt⟩
      · rintro ⟨b, hb | hb, hgt⟩
        · exact absurd (hb ▸ hgt) h
        · exact ⟨b, hb, hgt⟩

/-- C1 counterexample: the code initializes `last_sent` to `0`, not to a
distinct "never" (src/main.py line 81), so at the claim's own attempt times
`{0, 1, 2, 4}` the verdicts are `{false, false, false, true}`, not
`{true, false, false, true}`: at time `0`, with no send ever recorded, the
code's test `0 - 0 > 3` is false while the spec's "never" clause demands
true. -/
theorem C1_counterexample :
    attemptSeq initState.last_sent [0, 1, 2, 4] = [false, false, false, true] ∧
    shouldSend initState.last_sent 0 = false ∧
    shouldSend_spec none 0 = true := by decide

/-- C1 (amended): `shouldSend` returns true iff `now - lastSent > SEND_INTERVAL`,
with `lastSent` initialized to `0` (the clock origin) rather than a distinct
"never"; the "never" behaviour therefore coincides with the code exactly when
`now > SEND_INTERVAL`, which holds for every realistic clock reading. For
attempts at times `t0, t0+1, t0+2, t0+4` with `t0 > SEND_INTERVAL`, recording
after each firing attempt regardless of delivery outcome, the verdicts are
`true, false, false, true`. -/
theorem C1_rate_limiter (lastSent now t0 : ℤ) (ht : t0 > SEND_INTERVAL) :
    (shouldSend lastSent now = true ↔ now - lastSent > SEND_INTERVAL) ∧
    attemptSeq initState.last_sent [t0, t0 + 1, t0 + 2, t0 + 4] =
      [true, false, false, true] := by
  constructor
  · simp [shouldSend]
  · have e1 : shouldSend initState.last_sent t0 = true := by
      simp only [shouldSend, initState, decide_eq_true_eq]
      omega
    have e2 : shouldSend t0 (t0 + 1) = false := by
      simp only [shouldSend, SEND_INTERVAL, decide_eq_false_iff_not]
      omega
    have e3 : shouldSend t0 (t0 + 2) = false := by
      simp only [shouldSend, SEND_INTERVAL, decide_eq_false_iff_not]
      omega
    have e4 : shouldSend t0 (t0 + 4) = true := by
      simp only [shouldSend, SEND_INTERVAL, decide_eq_true_eq]
      omega
    simp [attemptSeq, e1, e2, e3, e4]

/-- C1 witness: the amended sequence at `t0 = 4`. -/
theorem C1_witness :
    (shouldSend 7 9 = true ↔ 9 - 7 > SEND_INTERVAL) ∧
    attemptSeq initState.last_sent [4, 4 + 1, 4 + 2, 4 + 4] =
      [true, false, false, true] :=
  C1_rate_limiter 7 9 4 (by decide)

/-- C2: the pipeline declares motion iff some contour area strictly exceeds
`MIN_CONTOUR_AREA`; with a maximal area of exactly threshold + 1 the verdict
is true, and with a maximal area of exactly the threshold it is false. -/
theorem C2_motion_threshold :
    (∀ areas : List ℚ, process_frame (Except.ok areas) = true ↔
       ∃ a ∈ areas, a > MIN_CONTOUR_AREA) ∧
    (∀ (areas : List ℚ) (a : ℚ), a ∈ areas → (∀ b ∈ areas, b ≤ a) →
       (a = MIN_CONTOUR_AREA + 1 → process_frame (Except.ok areas) = true) ∧
       (a = MIN_CONTOUR_AREA → process_frame (Except.ok areas) = false)) := by
  have hpf : ∀ areas : List ℚ, process_frame (Except.ok areas) = contourScan areas :=
    fun _ => rfl
  refine ⟨fun areas => (hpf areas ▸ contourScan_eq_true_iff areas), ?_⟩
  intro areas a ha hmax
  constructor
  · intro he
    rw [hpf, contourScan_eq_true_iff]
    refine ⟨a, ha, ?_⟩
    rw [he]
    norm_num
  · intro he
    have hnot : ¬ contourScan areas = true := by
      rw [contourScan_eq_true_iff]
      rintro ⟨b, hb, hgt⟩
      exact absurd hgt (not_lt.mpr (he ▸ hmax b hb))
    rw [hpf]
    exact Bool.not_eq_true _ ▸ hnot

/-- C2 witness: the threshold boundary at the concrete singleton frames. -/
theorem C2_witness :
    process_frame (Except.ok [MIN_CONTOUR_AREA + 1]) = true ∧
    process_frame (Except.ok [MIN_CONTOUR_AREA]) = false :=
  ⟨(C2_motion_threshold.2 [MIN_CONTOUR_AREA + 1] (MIN_CONTOUR_AREA + 1)
      (by simp) (by simp)).1 rfl,
   (C2_motion_threshold.2 [MIN_CONTOUR_AREA] MIN_CONTOUR_AREA
      (by simp) (by simp)).2 rfl⟩

/-- C3: when the analysis inside `process_frame` fails, the handler of
src/main.py lines 160-162 turns the failure into `False` ("no motion");
on such a cycle the capture loop neither stops nor attempts a send, and
proceeds to the next frame. -/
theorem C3_fail_safe (s : DetectorState) (inp : CycleInput) (msg : String)
    (f : Frame) (hread : inp.read = some f)
    (herr : inp.analysis = Except.error msg) :
    process_frame inp.analysis = false ∧
    (runStep s inp).stopped = false ∧
    (runStep s inp).attempted = false := by
  obtain ⟨r, a, n, d⟩ := inp
  dsimp only at hread herr
  subst hread herr
  refine ⟨rfl, ?_, ?_⟩ <;>
    simp [runStep, process_frame, SEND_INTERVAL]

/-- C3 witness: a concrete failing analysis on a read frame. -/
theorem C3_witness :
    process_frame (Except.error "cv2 failure") = false ∧
    (runStep initState ⟨some ⟨0⟩, Except.error "cv2 failure", 5, false⟩).stopped
      = false ∧
    (runStep initState ⟨some ⟨0⟩, Except.error "cv2 failure", 5, false⟩).attempted
      = false :=
  C3_fail_safe initState ⟨some ⟨0⟩, Except.error "cv2 failure", 5, false⟩
    "cv2 failure" ⟨0⟩ rfl rfl

/-- C5: on a cycle that attempts a notification, `last_sent` becomes the
attempt time, and the whole cycle outcome is unchanged if the delivery
outcome is flipped — the source never consults it (src/main.py lines
215-218), so a failed send consumes the full cooldown window. -/
theorem C5_unconditional_record (s : DetectorState) (inp : CycleInput)
    (hatt : (runStep s inp).attempted = true) :
    (runStep s inp).state.last_sent = inp.now ∧
    runStep s { inp with delivered := !inp.delivered } = runStep s inp := by
  obtain ⟨r, a, n, d⟩ := inp
  cases r with
  | none => simp [runStep] at hatt
  | some f =>
    by_cases hc : process_frame a = true ∧ n - s.last_sent > SEND_INTERVAL
    · exact ⟨by simp [runStep, if_pos hc], rfl⟩
    · simp [runStep, if_neg hc] at hatt

/-- C5 witness: a concrete attempting cycle with a failed delivery. -/
theorem C5_witness :
    (runStep initState ⟨some ⟨1⟩, Except.ok [6000], 10, false⟩).state.last_sent
      = 10 ∧
    runStep initState ⟨some ⟨1⟩, Except.ok [6000], 10, !false⟩ =
      runStep initState ⟨some ⟨1⟩, Except.ok [6000], 10, false⟩ :=
  C5_unconditional_record initState ⟨some ⟨1⟩, Except.ok [6000], 10, false⟩
    (by decide)

/-- C10: a cycle that attempts no notification leaves `last_sent` unchanged,
and a notification attempt happens exactly when a frame was read, the
pipeline reported motion, and the cooldown had elapsed — so the attempt is
the only modifier of `last_sent`. -/
theorem C10_last_sent_frame (s : DetectorState) (inp : CycleInput) :
    ((runStep s inp).attempted = false →
       (runStep s inp).state.last_sent = s.last_sent) ∧
    ((runStep s inp).attempted = true ↔
       ∃ f, inp.read = some f ∧ process_frame inp.analysis = true ∧
         inp.now - s.last_sent > SEND_INTERVAL) := by
  obtain ⟨r, a, n, d⟩ := inp
  cases r with
  | none =>
    refine ⟨fun _ => rfl, ?_⟩
    simp [runStep]
  | some f =>
    by_cases hc : process_frame a = true ∧ n - s.last_sent > SEND_INTERVAL
    · constructor
      · intro h
        simp [runStep, if_pos hc] at h
      · constructor
        · intro _
          exact ⟨f, rfl, hc.1, hc.2⟩
        · intro _
          simp [runStep, if_pos hc]
    · constructor
      · intro _
        simp [runStep, if_neg hc]
      · constructor
        · intro h
          simp [runStep, if_neg hc] at h
        · rintro ⟨f', hf', h1, h2⟩
          cases hf'
          exact absurd ⟨h1, h2⟩ hc

/-- C10 witness: a motionless cycle does not touch `last_sent`. -/
theorem C10_witness :
    (runStep initState ⟨some ⟨1⟩, Except.ok [], 10, true⟩).state.last_sent =
      initState.last_sent :=
  (C10_last_sent_frame initState ⟨some ⟨1⟩, Except.ok [], 10, true⟩).1 (by decide)

/-- C4: for any `datetime`-representable instant, the scheduler's computed
next fire is at the configured time of day, lies strictly in the future, and
is the least such occurrence; at 15:00 it lands on the next calendar day,
at 13:00 on the same day. -/
theorem C4_next_fire (now : Instant) (h0 : 0 ≤ now.tod) (h1 : now.tod < 86400) :
    (nextScheduled now).tod = DAILY_PHOTO_TIME ∧
    (nextScheduled now).abs > now.abs ∧
    (∀ i : Instant, i.tod = DAILY_PHOTO_TIME → i.abs > now.abs →
       (nextScheduled now).abs ≤ i.abs) ∧
    (now.tod = 15 * 3600 → nextScheduled now = ⟨now.day + 1, DAILY_PHOTO_TIME⟩) ∧
    (now.tod = 13 * 3600 → nextScheduled now = ⟨now.day, DAILY_PHOTO_TIME⟩) := by
  obtain ⟨d, tod⟩ := now
  dsimp only at h0 h1 ⊢
  by_cases hc : tod ≥ DAILY_PHOTO_TIME
  · have hn : nextScheduled ⟨d, tod⟩ = ⟨d + 1, DAILY_PHOTO_TIME⟩ := if_pos hc
    simp only [DAILY_PHOTO_TIME] at hc
    refine ⟨by rw [hn], ?_, ?_, fun _ => hn, fun he => ?_⟩
    · rw [hn]
      simp only [Instant.abs, DAILY_PHOTO_TIME]
      push_cast
      omega
    · intro i hi habs
      obtain ⟨di, todi⟩ := i
      dsimp only at hi
      rw [hn]
      simp only [Instant.abs, DAILY_PHOTO_TIME] at hi habs ⊢
      push_cast at habs ⊢
      omega
    · exact absurd he (by omega)
  · have hn : nextScheduled ⟨d, tod⟩ = ⟨d, DAILY_PHOTO_TIME⟩ := if_neg hc
    simp only [DAILY_PHOTO_TIME] at hc
    refine ⟨by rw [hn], ?_, ?_, fun he => ?_, fun _ => hn⟩
    · rw [hn]
      simp only [Instant.abs, DAILY_PHOTO_TIME]
      push_cast
      omega
    · intro i hi habs
      obtain ⟨di, todi⟩ := i
      dsimp only at hi
      rw [hn]
      simp only [Instant.abs, DAILY_PHOTO_TIME] at hi habs ⊢
      push_cast at habs ⊢
      omega
    · exact absurd he (by omega)

/-- C4 witness: the two concrete examples at day 0, plus strict futureness
at 15:00. -/
theorem C4_witness :
    nextScheduled ⟨0, 15 * 3600⟩ = ⟨0 + 1, DAILY_PHOTO_TIME⟩ ∧
    nextScheduled ⟨0, 13 * 3600⟩ = ⟨0, DAILY_PHOTO_TIME⟩ ∧
    (nextScheduled ⟨0, 15 * 3600⟩).abs > (Instant.mk 0 (15 * 3600)).abs :=
  ⟨(C4_next_fire ⟨0, 15 * 3600⟩ (by decide) (by decide)).2.2.2.1 rfl,
   (C4_next_fire ⟨0, 13 * 3600⟩ (by decide) (by decide)).2.2.2.2 rfl,
   (C4_next_fire ⟨0, 15 * 3600⟩ (by decide) (by decide)).2.1⟩

/-- C6: an iteration of the daily scheduler that wakes with an empty
latest-frame slot makes no `send_photo` call, logs exactly one warning, and
fires at the computed next occurrence; the recomputation at the top of the
following iteration (whose "now" is the fire instant) lands on the next
calendar day's occurrence. -/
theorem C6_empty_slot (now : Instant) :
    (schedulerIter now none).sinkCalls = 0 ∧
    (schedulerIter now none).warnings = 1 ∧
    (schedulerIter now none).fireAt = nextScheduled now ∧
    nextScheduled (schedulerIter now none).fireAt =
      ⟨(schedulerIter now none).fireAt.day + 1, DAILY_PHOTO_TIME⟩ := by
  refine ⟨rfl, rfl, rfl, ?_⟩
  have htod : (schedulerIter now none).fireAt.tod = DAILY_PHOTO_TIME := by
    show (nextScheduled now).tod = DAILY_PHOTO_TIME
    unfold nextScheduled
    split <;> rfl
  simp only [nextScheduled, htod, if_pos le_rfl]

/-- C7 counterexample: both clauses of the claim fail on the code. With a
non-empty token lacking a `:` and a valid chat id — a malformed credential
that passes the module-level check — the process exits with code 0 (the
`ValueError` from `__init__` is caught and merely logged by `main`,
src/main.py lines 240-241), while the claim demands non-zero; the camera is
still never acquired. And with well-formed credentials no shutdown path
exits 0: a camera-read failure or an interrupt caught inside `run` leaves
`main` pending forever on the never-completing scheduler task of
`asyncio.gather`, and an interrupt escaping to `asyncio.run` is re-raised
uncaught and exits non-zero. -/
theorem C7_counterexample :
    truthy (some "abc") = true ∧ truthy (some "12345") = true ∧
    tokenWellFormed "abc" = false ∧
    processOutcome (some "abc") (some "12345") ShutdownCause.interruptInRun =
      ProcessExit.exitZero false ∧
    tokenWellFormed "123:abc" = true ∧
    processOutcome (some "123:abc") (some "12345")
      ShutdownCause.cameraReadFailure = ProcessExit.neverExits true ∧
    processOutcome (some "123:abc") (some "12345")
      ShutdownCause.interruptInRun = ProcessExit.neverExits true ∧
    processOutcome (some "123:abc") (some "12345")
      ShutdownCause.interruptEscapes = ProcessExit.exitNonZero true := by
  refine ⟨rfl, rfl, rfl, rfl, rfl, rfl, rfl, rfl⟩

/-- C7 (amended): a missing or empty credential raises at module level and
the process exits non-zero without acquiring the camera; a present,
non-empty token without a `:` raises in `__init__` before the camera is
acquired, but `main` catches the `ValueError`, so the process exits 0 —
still without the camera. After a successful startup the process never
exits with code 0: an interrupt caught inside `run` or a camera-read
failure leaves `main` awaiting the never-completing scheduler forever,
and an interrupt that escapes to `asyncio.run` (uncatchable by `main`'s
`except Exception`) exits non-zero. -/
theorem C7_exit_codes (token chatId : Option String) (cause : ShutdownCause) :
    (truthy token = false ∨ truthy chatId = false →
       processOutcome token chatId cause = ProcessExit.exitNonZero false) ∧
    (∀ t, token = some t → truthy token = true → truthy chatId = true →
       tokenWellFormed t = false →
       processOutcome token chatId cause = ProcessExit.exitZero false) ∧
    (∀ t, token = some t → truthy token = true → truthy chatId = true →
       tokenWellFormed t = true →
       (∀ b, processOutcome token chatId cause ≠ ProcessExit.exitZero b) ∧
       (cause = ShutdownCause.interruptInRun ∨
          cause = ShutdownCause.cameraReadFailure →
          processOutcome token chatId cause = ProcessExit.neverExits true) ∧
       (cause = ShutdownCause.interruptEscapes →
          processOutcome token chatId cause = ProcessExit.exitNonZero true)) := by
  refine ⟨?_, ?_, ?_⟩
  · intro h
    rcases h with h | h <;> simp [processOutcome, h]
  · rintro t rfl htok hchat hcolon
    simp [processOutcome, htok, hchat, hcolon]
  · rintro t rfl htok hchat hcolon
    refine ⟨?_, ?_, ?_⟩
    · intro b
      cases cause <;> simp [processOutcome, htok, hchat, hcolon]
    · rintro (rfl | rfl) <;> simp [processOutcome, htok, hchat, hcolon]
    · rintro rfl
      simp [processOutcome, htok, hchat, hcolon]

/-- C7 witness: the exit regimes at concrete credentials and causes. -/
theorem C7_witness :
    processOutcome none (some "12345") ShutdownCause.interruptInRun =
      ProcessExit.exitNonZero false ∧
    processOutcome (some "abcdef") (some "12345")
      ShutdownCause.interruptInRun = ProcessExit.exitZero false ∧
    processOutcome (some "123:abc") (some "12345")
      ShutdownCause.cameraReadFailure = ProcessExit.neverExits true ∧
    processOutcome (some "123:abc") (some "12345")
      ShutdownCause.interruptEscapes = ProcessExit.exitNonZero true :=
  ⟨(C7_exit_codes none (some "12345") ShutdownCause.interruptInRun).1
      (Or.inl rfl),
   (C7_exit_codes (some "abcdef") (some "12345")
      ShutdownCause.interruptInRun).2.1 "abcdef" rfl rfl rfl rfl,
   ((C7_exit_codes (some "123:abc") (some "12345")
      ShutdownCause.cameraReadFailure).2.2 "123:abc" rfl rfl rfl rfl).2.1
      (Or.inr rfl),
   ((C7_exit_codes (some "123:abc") (some "12345")
      ShutdownCause.interruptEscapes).2.2 "123:abc" rfl rfl rfl rfl).2.2 rfl⟩

/-- C8: the latest-frame slot is empty until the first successful read, each
successful cycle overwrites it with exactly the frame just captured, and
after any run it holds the newest successfully captured frame (or the prior
value if no frame was captured). -/
theorem C8_latest_frame_slot (s : DetectorState) (inps : List CycleInput) :
    (capturedFrames inps = [] →
       (runLoop s inps).latest_frame = s.latest_frame) ∧
    (∀ f, (capturedFrames inps).getLast? = some f →
       (runLoop s inps).latest_frame = some f) ∧
    (∀ (inp : CycleInput) (f : Frame), inp.read = some f →
       (runStep s inp).state.latest_frame = some f) := by
  have hstep : ∀ (s0 : DetectorState) (inp : CycleInput) (f : Frame),
      inp.read = some f → (runStep s0 inp).state.latest_frame = some f := by
    intro s0 inp f hf
    obtain ⟨r, a, n, d⟩ := inp
    dsimp only at hf
    subst hf
    by_cases hc : process_frame a = true ∧ n - s0.last_sent > SEND_INTERVAL
    · simp [runStep, if_pos hc]
    · simp [runStep, if_neg hc]
  have hstop : ∀ (s0 : DetectorState) (inp : CycleInput) (f : Frame),
      inp.read = some f → (runStep s0 inp).stopped = false := by
    intro s0 inp f hf
    obtain ⟨r, a, n, d⟩ := inp
    dsimp only at hf
    subst hf
    by_cases hc : process_frame a = true ∧ n - s0.last_sent > SEND_INTERVAL
    · simp [runStep, if_pos hc]
    · simp [runStep, if_neg hc]
  have main : ∀ (l : List CycleInput) (s0 : DetectorState),
      (capturedFrames l = [] →
         (runLoop s0 l).latest_frame = s0.latest_frame) ∧
      (∀ f, (capturedFrames l).getLast? = some f →
         (runLoop s0 l).latest_frame = some f) := by
    intro l
    induction l with
    | nil =>
      intro s0
      exact ⟨fun _ => rfl, fun f hf => by simp [capturedFrames] at hf⟩
    | cons inp rest ih =>
      intro s0
      cases hr : inp.read with
      | none =>
        have h1 : runStep s0 inp = ⟨s0, true, false⟩ := by
          obtain ⟨r, a, n, d⟩ := inp
          dsimp only at hr
          subst hr
          rfl
        constructor
        · intro _
          simp [runLoop, h1]
        · intro f hf
          simp [capturedFrames, hr] at hf
      | some f0 =>
        have h1 := hstop s0 inp f0 hr
        have h2 := hstep s0 inp f0 hr
        have hcap : capturedFrames (inp :: rest) = f0 :: capturedFrames rest := by
          simp [capturedFrames, hr]
        have hloop : runLoop s0 (inp :: rest) =
            runLoop (runStep s0 inp).state rest := by
          simp [runLoop, h1]
        constructor
        · intro hnil
          rw [hcap] at hnil
          cases hnil
        · intro f hf
          rw [hcap] at hf
          rcases hcrest : capturedFrames rest with _ | ⟨c, cs⟩
          · rw [hcrest, List.getLast?_singleton] at hf
            cases hf
            rw [hloop, (ih (runStep s0 inp).state).1 hcrest]
            exact h2
          · rw [hcrest, List.getLast?_cons_cons] at hf
            rw [hloop]
            exact (ih (runStep s0 inp).state).2 f (by rw [hcrest]; exact hf)
  exact ⟨(main inps s).1, (main inps s).2, hstep s⟩

/-- C8 witness: two successful cycles leave the newest frame in the slot. -/
theorem C8_witness :
    (runLoop initState
       [⟨some ⟨1⟩, Except.ok [], 0, false⟩,
        ⟨some ⟨2⟩, Except.ok [], 1, false⟩]).latest_frame = some ⟨2⟩ :=
  (C8_latest_frame_slot initState
    [⟨some ⟨1⟩, Except.ok [], 0, false⟩,
     ⟨some ⟨2⟩, Except.ok [], 1, false⟩]).2.1 ⟨2⟩ (by decide)

/-! ### Properties of the masking replacement -/

/-- Unfolding `replaceAll` on the empty message. -/
lemma replaceAll_nil (sec mask : List Char) : replaceAll sec mask [] = [] := by
  rw [replaceAll]

/-- Unfolding `replaceAll` at a match position. -/
lemma replaceAll_cons_pos (sec mask : List Char) (c : Char) (rest : List Char)
    (h : sec.isPrefixOf (c :: rest) = true) :
    replaceAll sec mask (c :: rest) =
      mask ++ replaceAll sec mask (List.drop (sec.length - 1) rest) := by
  rw [replaceAll]
  simp [h]

/-- Unfolding `replaceAll` at a non-match position. -/
lemma replaceAll_cons_neg (sec mask : List Char) (c : Char) (rest : List Char)
    (h : ¬ sec.isPrefixOf (c :: rest) = true) :
    replaceAll sec mask (c :: rest) = c :: replaceAll sec mask rest := by
  rw [replaceAll]
  simp [h]

/-- A message without an occurrence of the secret passes through
`replaceAll` unchanged. -/
lemma replaceAll_id_of_not_infix (sec mask : List Char) :
    ∀ t, ¬ sec <:+: t → replaceAll sec mask t = t := by
  intro t
  refine replaceAll.induct sec mask
    (fun t => ¬ sec <:+: t → replaceAll sec mask t = t) ?_ ?_ ?_ t
  · intro _
    exact replaceAll_nil sec mask
  · intro c rest hpre _ hnot
    exact absurd ((List.isPrefixOf_iff_prefix.mp hpre).isInfix) hnot
  · intro c rest hpre ih hnot
    rw [replaceAll_cons_neg sec mask c rest hpre]
    rw [ih fun hh => hnot (hh.trans (List.suffix_cons c rest).isInfix)]

/-- An infix whose characters all avoid `a` must be an infix of `b` in
`a ++ b`. -/
lemma infix_append_elim {sec a b : List Char} (hsec : sec ≠ [])
    (hdisj : ∀ c ∈ sec, c ∉ a) (h : sec <:+: a ++ b) : sec <:+: b := by
  induction a with
  | nil => simpa using h
  | cons x xs ih =>
    rw [List.cons_append, List.infix_cons_iff] at h
    rcases h with hp | hi
    · obtain ⟨c, cs, rfl⟩ := List.exists_cons_of_ne_nil hsec
      rw [List.cons_prefix_cons] at hp
      have h1 : c ∉ x :: xs := hdisj c (List.mem_cons_self c cs)
      rw [hp.1] at h1
      exact absurd (List.mem_cons_self x xs) h1
    · exact ih (fun c hc hca => hdisj c hc (List.mem_cons_of_mem x hca)) hi

/-- A nonempty prefix of `replaceAll sec mask t` whose characters avoid the
mask is a prefix of `t` itself: the emitted output starts either with the
mask or with kept characters of `t`. -/
lemma prefix_of_replaceAll (sec mask : List Char) (hmask : mask ≠ []) :
    ∀ (t u : List Char), u ≠ [] → (∀ c ∈ u, c ∉ mask) →
      u <+: replaceAll sec mask t → u <+: t := by
  intro t
  refine replaceAll.induct sec mask
    (fun t => ∀ u, u ≠ [] → (∀ c ∈ u, c ∉ mask) →
      u <+: replaceAll sec mask t → u <+: t) ?_ ?_ ?_ t
  · intro u hu _ hp
    rw [replaceAll_nil] at hp
    exact absurd (List.prefix_nil.mp hp) hu
  · intro c rest hpre _ u hu hdisj hp
    rw [replaceAll_cons_pos sec mask c rest hpre] at hp
    obtain ⟨u0, us, rfl⟩ := List.exists_cons_of_ne_nil hu
    obtain ⟨m0, ms, rfl⟩ := List.exists_cons_of_ne_nil hmask
    rw [List.cons_append, List.cons_prefix_cons] at hp
    have h1 : u0 ∉ m0 :: ms := hdisj u0 (List.mem_cons_self u0 us)
    rw [hp.1] at h1
    exact absurd (List.mem_cons_self m0 ms) h1
  · intro c rest hpre ih u hu hdisj hp
    rw [replaceAll_cons_neg sec mask c rest hpre] at hp
    obtain ⟨u0, us, rfl⟩ := List.exists_cons_of_ne_nil hu
    rw [List.cons_prefix_cons] at hp
    obtain ⟨rfl, hus⟩ := hp
    by_cases husnil : us = []
    · subst husnil
      exact List.cons_prefix_cons.mpr ⟨rfl, List.nil_prefix⟩
    · exact List.cons_prefix_cons.mpr
        ⟨rfl, ih us husnil (fun x hx => hdisj x (List.mem_cons_of_mem _ hx)) hus⟩

/-- After `replaceAll sec mask t`, no occurrence of `sec` remains, provided
`sec` is nonempty, the mask is nonempty, and no character of `sec` occurs in
the mask (so the replacement cannot recreate the secret). -/
lemma replaceAll_not_infix (sec mask : List Char) (hsec : sec ≠ [])
    (hmask : mask ≠ []) (hdisj : ∀ c ∈ sec, c ∉ mask) :
    ∀ t, ¬ sec <:+: replaceAll sec mask t := by
  intro t
  refine replaceAll.induct sec mask
    (fun t => ¬ sec <:+: replaceAll sec mask t) ?_ ?_ ?_ t
  · intro h
    rw [replaceAll_nil] at h
    exact hsec (List.infix_nil.mp h)
  · intro c rest hpre ih h
    rw [replaceAll_cons_pos sec mask c rest hpre] at h
    exact ih (infix_append_elim hsec hdisj h)
  · intro c rest hpre ih h
    rw [replaceAll_cons_neg sec mask c rest hpre] at h
    rw [List.infix_cons_iff] at h
    rcases h with hp | hi
    · obtain ⟨s0, ss, rfl⟩ := List.exists_cons_of_ne_nil hsec
      rw [List.cons_prefix_cons] at hp
      obtain ⟨rfl, hss⟩ := hp
      apply hpre
      rw [List.isPrefixOf_iff_prefix]
      by_cases hssnil : ss = []
      · subst hssnil
        exact List.cons_prefix_cons.mpr ⟨rfl, List.nil_prefix⟩
      · refine List.cons_prefix_cons.mpr ⟨rfl, ?_⟩
        exact prefix_of_replaceAll _ mask hmask rest ss hssnil
          (fun x hx => hdisj x (List.mem_cons_of_mem _ hx)) hss
    · exact ih hi

/-- Replacing a (possibly different) secret cannot introduce an occurrence of
`sec` into a message that had none, as long as `sec` shares no character with
the mask. -/
lemma replaceAll_preserves_not_infix (sec2 sec mask : List Char)
    (hsec : sec ≠ []) (hmask : mask ≠ []) (hdisj : ∀ c ∈ sec, c ∉ mask) :
    ∀ t, ¬ sec <:+: t → ¬ sec <:+: replaceAll sec2 mask t := by
  intro t
  refine replaceAll.induct sec2 mask
    (fun t => ¬ sec <:+: t → ¬ sec <:+: replaceAll sec2 mask t) ?_ ?_ ?_ t
  · intro hnot h
    rw [replaceAll_nil] at h
    exact hnot h
  · intro c rest hpre ih hnot h
    rw [replaceAll_cons_pos sec2 mask c rest hpre] at h
    refine ih ?_ (infix_append_elim hsec hdisj h)
    intro hh
    exact hnot (hh.trans
      (((List.drop_suffix _ rest).trans (List.suffix_cons c rest)).isInfix))
  · intro c rest hpre ih hnot h
    rw [replaceAll_cons_neg sec2 mask c rest hpre] at h
    rw [List.infix_cons_iff] at h
    rcases h with hp | hi
    · obtain ⟨s0, ss, rfl⟩ := List.exists_cons_of_ne_nil hsec
      rw [List.cons_prefix_cons] at hp
      obtain ⟨rfl, hss⟩ := hp
      by_cases hssnil : ss = []
      · subst hssnil
        exact hnot (List.cons_prefix_cons.mpr
          ⟨rfl, List.nil_prefix⟩ : _ <+: s0 :: rest).isInfix
      · have hss' := prefix_of_replaceAll sec2 mask hmask rest ss hssnil
          (fun x hx => hdisj x (List.mem_cons_of_mem _ hx)) hss
        exact hnot (List.cons_prefix_cons.mpr ⟨rfl, hss'⟩ :
          _ <+: s0 :: rest).isInfix
    · exact ih (fun hh => hnot (hh.trans (List.suffix_cons c rest).isInfix)) hi

/-- Absence of an occurrence of a star-free secret is preserved by the whole
masking fold of `SecureFormatter.format`. -/
lemma secureFormat_preserves (sec : List Char) (hsec : sec ≠ [])
    (hdisj : ∀ c ∈ sec, c ∉ stars) :
    ∀ (rest : List (List Char)) (m : List Char), ¬ sec <:+: m →
      ¬ sec <:+: secureFormat rest m := by
  intro rest
  induction rest with
  | nil => exact fun m hm => hm
  | cons s rs ih =>
    intro m hm
    show ¬ sec <:+: secureFormat rs
      (if s.length > 4 then replaceAll s stars m else m)
    apply ih
    by_cases hl : s.length > 4
    · rw [if_pos hl]
      exact replaceAll_preserves_not_infix s sec stars hsec (by decide) hdisj m hm
    · rw [if_neg hl]
      exact hm

/-- C9 counterexample: the formatter only masks secrets longer than 4
characters (src/main.py line 42). A 4-character chat id — which passes the
startup validation, which only requires non-emptiness — survives unmasked in
a formatted log line: the output contains the secret as a substring, against
the claim that no log output ever contains a secret. -/
theorem C9_counterexample :
    truthy (some "123:456") = true ∧ truthy (some "1234") = true ∧
    tokenWellFormed "123:456" = true ∧
    secureFormat ["123:456".toList, "1234".toList] "id 1234".toList =
      "id 1234".toList ∧
    "1234".toList <:+:
      secureFormat ["123:456".toList, "1234".toList] "id 1234".toList := by
  have h1 : replaceAll "123:456".toList stars "id 1234".toList =
      "id 1234".toList :=
    replaceAll_id_of_not_infix _ _ _ (by decide)
  have heq : secureFormat ["123:456".toList, "1234".toList] "id 1234".toList =
      "id 1234".toList := by
    show secureFormat ["1234".toList]
      (if ("123:456".toList.length > 4) then
        replaceAll "123:456".toList stars "id 1234".toList
      else "id 1234".toList) = _
    rw [if_pos (by decide), h1]
    show (if ("1234".toList.length > 4) then
      replaceAll "1234".toList stars "id 1234".toList
    else "id 1234".toList) = _
    rw [if_neg (by decide)]
  refine ⟨rfl, rfl, rfl, heq, ?_⟩
  rw [heq]
  decide

/-- C9 (amended): every secret configured in the formatter that is longer
than 4 characters and contains no `'*'` is masked out of every formatted
message: no occurrence of it survives in the emitted log line. Secrets of
4 characters or fewer are not masked at all. -/
theorem C9_secret_masking (secrets : List (List Char)) (msg sec : List Char)
    (hmem : sec ∈ secrets) (hlen : 4 < sec.length)
    (hstar : ∀ c ∈ sec, c ≠ '*') :
    ¬ sec <:+: secureFormat secrets msg := by
  have hsec : sec ≠ [] := by
    intro h
    rw [h] at hlen
    simp at hlen
  have hdisj : ∀ c ∈ sec, c ∉ stars := by
    intro c hc hmem'
    apply hstar c hc
    simpa [stars] using hmem'
  have main : ∀ (l : List (List Char)) (m : List Char), sec ∈ l →
      ¬ sec <:+: secureFormat l m := by
    intro l
    induction l with
    | nil =>
      intro m h
      cases h
    | cons s rs ih =>
      intro m hmem'
      rcases List.mem_cons.mp hmem' with rfl | hmem''
      · show ¬ sec <:+: secureFormat rs
          (if sec.length > 4 then replaceAll sec stars m else m)
        apply secureFormat_preserves sec hsec hdisj rs
        rw [if_pos hlen]
        exact replaceAll_not_infix sec stars hsec (by decide) hdisj m
      · exact ih (if s.length > 4 then replaceAll s stars m else m) hmem''
  exact main secrets msg hmem

/-- C9 witness: a concrete 5-character star-free secret is erased from a
message consisting of the secret itself. -/
theorem C9_witness :
    ¬ (['a', 'b', 'c', 'd', 'e'] <:+:
        secureFormat [['a', 'b', 'c', 'd', 'e']]
          ['x', 'a', 'b', 'c', 'd', 'e', 'y']) :=
  C9_secret_masking [['a', 'b', 'c', 'd', 'e']]
    ['x', 'a', 'b', 'c', 'd', 'e', 'y'] ['a', 'b', 'c', 'd', 'e']
    (by decide) (by decide) (by decide)

end Surveillance
